import Mathlib

/-!
Shallow embedding of `src/worker.js` (supplychaintool): the estimation
engine of a stateless HTTP worker that validates a batch of server
records and computes time/complexity estimates.

JavaScript numbers are modelled as exact rationals (ℚ); the arithmetic of
the engine is pure multiplication and addition of table constants, which
the spec treats as exact (no rounding, no clamping).  JavaScript values
appearing in record fields are modelled by the inductive `JSValue`;
truthiness follows the JavaScript rules for the representable values.

Two models of the manufacturer lookup at worker.js:86 appear below.  The
main pipeline (`manufacturerFactor`, `calculateEstimation`) implements the
lookup with the default the spec documents: a manufacturer not found in
the table maps to factor 1.0.  This is exact for every manufacturer
string that is not a property name inherited from `Object.prototype`.
The actual JavaScript bracket read, however, traverses the prototype
chain: for manufacturer strings such as toString or constructor it yields
an inherited truthy function, `|| 1` does not default, and the product at
worker.js:89 is NaN.  The parallel JS-suffixed pipeline
(`manufacturerFactorJS`, `calculateEstimationJS`) models that behaviour
with an explicit non-numeric marker `JNum.nan` and is used to exhibit the
divergence between the program and the documented default.
-/

/-- A JavaScript value as it can appear in a field of an input record. -/
inductive JSValue where
  | null
  | undefined
  | bool (b : Bool)
  | num (q : ℚ)
  | str (s : String)
deriving DecidableEq, Repr

/-- JavaScript falsiness: null, undefined, false, 0 and the empty string are falsy.
The required-field loop of the worker tests `!server[field]` (worker.js:63). -/
def falsy : JSValue → Bool
  | .null => true
  | .undefined => true
  | .bool b => !b
  | .num q => q = 0
  | .str s => s = ""

/-- An object candidate for a server record: the four fields the worker
reads.  An absent key reads as `undefined`. -/
structure ServerObj where
  type : JSValue
  manufacturer : JSValue
  model : JSValue
  quantity : JSValue
deriving DecidableEq, Repr

/-- One element of the input array: either not a (non-null) object, or an
object with the four fields (worker.js:57). -/
inductive Candidate where
  | notObject
  | obj (s : ServerObj)
deriving DecidableEq, Repr

/-- Property read `server[field]` for the required-field loop (worker.js:62-63). -/
def fieldOf (s : ServerObj) : String → JSValue
  | "type" => s.type
  | "manufacturer" => s.manufacturer
  | "model" => s.model
  | "quantity" => s.quantity
  | _ => .undefined

/-- List `requiredFields` of worker.js:61, in source order. -/
def requiredFields : List String := ["type", "manufacturer", "model", "quantity"]

/-- The `for (const field of requiredFields)` loop of worker.js:62-66: the
first falsy field raises `Missing required field: <field>`. -/
def checkRequired (s : ServerObj) : List String → Except String Unit
  | [] => .ok ()
  | f :: rest =>
    if falsy (fieldOf s f) then .error ("Missing required field: " ++ f)
    else checkRequired s rest

/-- Literal array of the three valid type strings, worker.js:68. -/
def validTypes : List String := ["rack", "blade", "custom"]

/-- Check `validTypes.includes(server.type)` of worker.js:68: `includes`
uses strict equality, so only the three exact strings pass. -/
def isValidType : JSValue → Bool
  | .str s => validTypes.contains s
  | _ => false

/-- Function `validateServer` of worker.js:56-75: object check, required-field loop,
type enum check, then quantity type/positivity check, in source order. -/
def validateServer : Candidate → Except String Unit
  | .notObject => .error "Invalid server object"
  | .obj server =>
    match checkRequired server requiredFields with
    | .error e => .error e
    | .ok _ =>
      if isValidType server.type then
        match server.quantity with
        | .num q =>
          if q ≤ 0 then .error "Quantity must be a positive number"
          else .ok ()
        | _ => .error "Quantity must be a positive number"
      else .error "Invalid server type"

/-- Per-type entry of `ESTIMATION_FACTORS` (worker.js:34-46). -/
structure TypeFactors where
  baseTime : ℚ
  complexityMultiplier : ℚ
deriving DecidableEq, Repr

/-- Per-type part of `ESTIMATION_FACTORS` (worker.js:34-46): rack 2/1.2,
blade 3/1.5, custom 4/2; any other key is absent. -/
def typeFactorsTable (t : String) : Option TypeFactors :=
  if t = "rack" then some ⟨2, 1.2⟩
  else if t = "blade" then some ⟨3, 1.5⟩
  else if t = "custom" then some ⟨4, 2⟩
  else none

/-- Table `ESTIMATION_FACTORS.manufacturers` (worker.js:47-52). -/
def manufacturersTable (m : String) : Option ℚ :=
  if m = "Dell" then some 0.9
  else if m = "HP" then some 1
  else if m = "Lenovo" then some 1.1
  else if m = "SuperMicro" then some 1.2
  else none

/-- JavaScript `x || 1` on an optional number: absent or zero (falsy)
defaults to 1 (worker.js:86).  No table value is zero, so in practice
only absence triggers the default. -/
def jsOr1 : Option ℚ → ℚ
  | some q => if q = 0 then 1 else q
  | none => 1

/-- Lookup `ESTIMATION_FACTORS.manufacturers[server.manufacturer] || 1`
(worker.js:86) under the default the spec documents: any manufacturer not
found in the table maps to 1.0.  This matches the program exactly for
every manufacturer that is not an `Object.prototype` property name; for
those inherited names the real bracket read returns a truthy function and
the program computes NaN instead — see `manufacturerFactorJS` below for
the faithful semantics.  A non-string manufacturer stringifies to a key
that hits neither the table nor the prototype, so the factor is 1 in both
models. -/
def manufacturerFactor : JSValue → ℚ
  | .str s => jsOr1 (manufacturersTable s)
  | _ => 1

/-- The string payload of a validated `type` field (validation guarantees
the field is one of the three enum strings). -/
def typeString : JSValue → String
  | .str s => s
  | _ => ""

/-- The numeric payload of a validated `quantity` field (validation
guarantees the field is a positive number). -/
def quantityNum : JSValue → ℚ
  | .num q => q
  | _ => 0

/-- Field `typeFactors.baseTime` after the lookup
`ESTIMATION_FACTORS[server.type]` (worker.js:85,88); the lookup is guaranteed to hit after validation, the
`⟨0, 0⟩` default is unreachable. -/
def baseTimeOf (t : String) : ℚ := ((typeFactorsTable t).getD ⟨0, 0⟩).baseTime

/-- Field `typeFactors.complexityMultiplier` after the same lookup
(worker.js:85,89). -/
def complexityMultiplierOf (t : String) : ℚ :=
  ((typeFactorsTable t).getD ⟨0, 0⟩).complexityMultiplier

/-- Product `serverTime = baseTime * manufacturerFactor *
complexityMultiplier * quantity` (worker.js:89), in source operand order. -/
def serverTime (o : ServerObj) : ℚ :=
  baseTimeOf (typeString o.type) * manufacturerFactor o.manufacturer *
    complexityMultiplierOf (typeString o.type) * quantityNum o.quantity

/-- One entry of `breakdownByServer` (worker.js:93-99): echoes the four
input fields and adds the computed `estimatedTime`. -/
structure ServerEstimate where
  type : JSValue
  manufacturer : JSValue
  model : JSValue
  quantity : JSValue
  estimatedTime : ℚ
deriving DecidableEq, Repr

/-- The record literal returned from the `map` callback (worker.js:93-99). -/
def mkEstimate (o : ServerObj) : ServerEstimate :=
  ⟨o.type, o.manufacturer, o.model, o.quantity, serverTime o⟩

/-- The success value of `calculateEstimation` (worker.js:107-111). -/
structure EstimationResult where
  totalTime : ℚ
  breakdownByServer : List ServerEstimate
  complexity : String
deriving DecidableEq, Repr

/-- The complexity classification of worker.js:103-105: Low unless
`totalTime > 20` (High) or else `totalTime > 10` (Medium). -/
def complexityOf (totalTime : ℚ) : String :=
  if totalTime > 20 then "High"
  else if totalTime > 10 then "Medium"
  else "Low"

/-- The `servers.map` loop of worker.js:80-100 with its mutable `totalTime`
accumulator made explicit: each element is validated (a thrown error
aborts the whole map), then its `serverTime` is added to the running
total and its estimate appended.  The `.notObject` branch under a
successful validation is unreachable, since validation rejects
non-objects first. -/
def calcAux : List Candidate → ℚ → List ServerEstimate →
    Except String (ℚ × List ServerEstimate)
  | [], total, acc => .ok (total, acc.reverse)
  | server :: rest, total, acc =>
    match validateServer server, server with
    | .error e, _ => .error e
    | .ok _, .notObject => .error "Invalid server object"
    | .ok _, .obj o => calcAux rest (total + serverTime o) (mkEstimate o :: acc)

/-- Function `calculateEstimation` of worker.js:78-112: run the mapping pass, then
classify the accumulated total. -/
def calculateEstimation (servers : List Candidate) : Except String EstimationResult :=
  match calcAux servers 0 [] with
  | .error e => .error e
  | .ok (totalTime, breakdownByServer) =>
    .ok ⟨totalTime, breakdownByServer, complexityOf totalTime⟩

/-- Property names every plain object literal inherits from
`Object.prototype` in the JavaScript runtime.  Reading any of these on the
manufacturers literal yields the inherited value — a function, or for
`__proto__` the prototype object itself — which is truthy and not a
number. -/
def objectPrototypeKeys : List String :=
  ["constructor", "hasOwnProperty", "isPrototypeOf", "propertyIsEnumerable",
   "toLocaleString", "toString", "valueOf", "__defineGetter__",
   "__defineSetter__", "__lookupGetter__", "__lookupSetter__", "__proto__"]

/-- Outcome of the JavaScript property read `manufacturers[m]` including
the prototype chain: an own data property holding a number, an inherited
truthy non-numeric value, or `undefined`. -/
inductive LookupResult where
  | ownNum (q : ℚ)
  | inherited
  | absent
deriving DecidableEq, Repr

/-- Faithful `ESTIMATION_FACTORS.manufacturers[m]` (worker.js:86): own keys
first, then the properties inherited from `Object.prototype`, else
`undefined`. -/
def manufacturersLookup (m : String) : LookupResult :=
  match manufacturersTable m with
  | some q => .ownNum q
  | none => if objectPrototypeKeys.contains m then .inherited else .absent

/-- JavaScript number that may be NaN.  `nan` also stands for the
non-numeric truthy values that survive `|| 1` at worker.js:86, since their
numeric coercion inside the product at worker.js:89 is NaN. -/
inductive JNum where
  | nan
  | num (q : ℚ)
deriving DecidableEq, Repr

/-- Multiplication with NaN propagation: any operand that is not a number
makes the product NaN. -/
def JNum.mul : JNum → JNum → JNum
  | .num a, .num b => .num (a * b)
  | _, _ => .nan

/-- Addition with NaN propagation (the `totalTime += serverTime` of
worker.js:91). -/
def JNum.add : JNum → JNum → JNum
  | .num a, .num b => .num (a + b)
  | _, _ => .nan

/-- JavaScript comparison `a > c`: false whenever `a` is NaN. -/
def JNum.gtb : JNum → ℚ → Bool
  | .num a, c => c < a
  | .nan, _ => false

/-- JavaScript comparison `a >= c`: false whenever `a` is NaN. -/
def JNum.geb : JNum → ℚ → Bool
  | .num a, c => c ≤ a
  | .nan, _ => false

/-- Faithful `ESTIMATION_FACTORS.manufacturers[server.manufacturer] || 1`
(worker.js:86): an own table value defaults through `|| 1` only when falsy
(no table value is), an inherited prototype property is truthy and passes
through as a non-number, and only a genuine miss defaults to 1. -/
def manufacturerFactorJS : JSValue → JNum
  | .str s =>
    match manufacturersLookup s with
    | .ownNum q => if q = 0 then .num 1 else .num q
    | .inherited => .nan
    | .absent => .num 1
  | _ => .num 1

/-- Faithful `serverTime` of worker.js:89 with NaN propagation, in source
operand order. -/
def serverTimeJS (o : ServerObj) : JNum :=
  (((JNum.num (baseTimeOf (typeString o.type))).mul
      (manufacturerFactorJS o.manufacturer)).mul
    (.num (complexityMultiplierOf (typeString o.type)))).mul
    (.num (quantityNum o.quantity))

/-- Breakdown entry of the faithful pipeline (worker.js:93-99). -/
structure ServerEstimateJS where
  type : JSValue
  manufacturer : JSValue
  model : JSValue
  quantity : JSValue
  estimatedTime : JNum
deriving DecidableEq, Repr

/-- The record literal of the `map` callback in the faithful pipeline. -/
def mkEstimateJS (o : ServerObj) : ServerEstimateJS :=
  ⟨o.type, o.manufacturer, o.model, o.quantity, serverTimeJS o⟩

/-- Success value of the faithful pipeline (worker.js:107-111). -/
structure EstimationResultJS where
  totalTime : JNum
  breakdownByServer : List ServerEstimateJS
  complexity : String
deriving DecidableEq, Repr

/-- Complexity ladder of worker.js:103-105 on a possibly-NaN total: both
comparisons are false at NaN, so a NaN total classifies as Low. -/
def complexityOfJS (totalTime : JNum) : String :=
  if totalTime.gtb 20 then "High"
  else if totalTime.gtb 10 then "Medium"
  else "Low"

/-- The `servers.map` loop of worker.js:80-100 in the faithful pipeline:
identical validation and control flow, NaN-propagating arithmetic. -/
def calcAuxJS : List Candidate → JNum → List ServerEstimateJS →
    Except String (JNum × List ServerEstimateJS)
  | [], total, acc => .ok (total, acc.reverse)
  | server :: rest, total, acc =>
    match validateServer server, server with
    | .error e, _ => .error e
    | .ok _, .notObject => .error "Invalid server object"
    | .ok _, .obj o => calcAuxJS rest (total.add (serverTimeJS o)) (mkEstimateJS o :: acc)

/-- Faithful `calculateEstimation` of worker.js:78-112. -/
def calculateEstimationJS (servers : List Candidate) :
    Except String EstimationResultJS :=
  match calcAuxJS servers (.num 0) [] with
  | .error e => .error e
  | .ok (totalTime, breakdownByServer) =>
    .ok ⟨totalTime, breakdownByServer, complexityOfJS totalTime⟩

/-- Worked example of the spec: type rack, manufacturer Dell, model R740,
quantity 1. -/
def rackDellRecord : Candidate := .obj ⟨.str "rack", .str "Dell", .str "R740", .num 1⟩

/-- The breakdown entry the engine produces for `rackDellRecord`:
`2 * 0.9 * 1.2 * 1 = 2.16` hours. -/
def rackDellEstimate : ServerEstimate :=
  ⟨.str "rack", .str "Dell", .str "R740", .num 1, 2.16⟩

/-- The result the engine produces for the batch `[rackDellRecord]`. -/
def rackDellResult : EstimationResult := ⟨2.16, [rackDellEstimate], "Low"⟩

/-- A record whose `quantity` key is `null`: JavaScript reads a falsy value,
so the required-field loop reports `quantity` as missing. -/
def missingQuantityRecord : Candidate := .obj ⟨.str "rack", .str "Dell", .str "R740", .null⟩

/-- A record with `quantity: 0` and all other fields present and valid. -/
def zeroQuantityRecord : Candidate := .obj ⟨.str "rack", .str "Dell", .str "R740", .num 0⟩

/-- A fully valid record whose manufacturer string collides with the
inherited `Object.prototype.toString` property. -/
def toStringRecord : Candidate := .obj ⟨.str "rack", .str "toString", .str "X", .num 1⟩

/-! ## Helper lemmas -/

lemma validateServer_obj (c : Candidate) (h : validateServer c = .ok ()) :
    ∃ o : ServerObj, c = .obj o := by
  cases c with
  | notObject => simp [validateServer] at h
  | obj o => exact ⟨o, rfl⟩

lemma validateServer_ok_facts (o : ServerObj)
    (h : validateServer (.obj o) = .ok ()) :
    isValidType o.type = true ∧ ∃ q : ℚ, o.quantity = .num q ∧ 0 < q := by
  simp only [validateServer] at h
  split at h
  · simp at h
  · split at h
    · next hty =>
      refine ⟨hty, ?_⟩
      split at h
      · next q heq =>
        split at h
        · simp at h
        · next hqle => exact ⟨q, heq, lt_of_not_le hqle⟩
      · simp at h
    · simp at h

lemma manufacturerFactor_pos (v : JSValue) : 0 < manufacturerFactor v := by
  cases v with
  | str s =>
    simp only [manufacturerFactor, manufacturersTable, jsOr1]
    split_ifs <;> norm_num
  | null => norm_num [manufacturerFactor]
  | undefined => norm_num [manufacturerFactor]
  | bool b => norm_num [manufacturerFactor]
  | num q => norm_num [manufacturerFactor]

lemma serverTime_pos (o : ServerObj)
    (h : validateServer (.obj o) = .ok ()) : 0 < serverTime o := by
  obtain ⟨hty, q, hq, hqpos⟩ := validateServer_ok_facts o h
  have hmf := manufacturerFactor_pos o.manufacturer
  cases htyv : o.type with
  | str s =>
    rw [htyv] at hty
    have hs : s = "rack" ∨ s = "blade" ∨ s = "custom" := by
      simpa [isValidType, validTypes] using hty
    unfold serverTime
    rw [htyv, hq]
    simp only [typeString, quantityNum]
    rcases hs with h' | h' | h' <;> subst h' <;>
      exact mul_pos (mul_pos (mul_pos
        (by simp only [baseTimeOf, typeFactorsTable, String.reduceEq]; norm_num) hmf)
        (by simp only [complexityMultiplierOf, typeFactorsTable, String.reduceEq]; norm_num))
        hqpos
  | null => rw [htyv] at hty; simp [isValidType] at hty
  | undefined => rw [htyv] at hty; simp [isValidType] at hty
  | bool b => rw [htyv] at hty; simp [isValidType] at hty
  | num q' => rw [htyv] at hty; simp [isValidType] at hty

lemma calcAux_ok (servers : List Candidate) :
    ∀ (total : ℚ) (acc : List ServerEstimate) (t : ℚ) (bd : List ServerEstimate),
    calcAux servers total acc = .ok (t, bd) →
    ∃ tail : List ServerEstimate,
      bd = acc.reverse ++ tail ∧
      t = total + (tail.map ServerEstimate.estimatedTime).sum ∧
      tail.length = servers.length ∧
      ∀ e ∈ tail, ∃ o : ServerObj,
        e = mkEstimate o ∧ validateServer (.obj o) = .ok () := by
  induction servers with
  | nil =>
    intro total acc t bd h
    simp only [calcAux, Except.ok.injEq, Prod.mk.injEq] at h
    exact ⟨[], by simp [← h.2], by simp [← h.1], rfl, by simp⟩
  | cons c rest ih =>
    intro total acc t bd h
    cases hv : validateServer c with
    | error e => simp [calcAux, hv] at h
    | ok u =>
      cases c with
      | notObject => simp [validateServer] at hv
      | obj o =>
        rw [show calcAux (Candidate.obj o :: rest) total acc =
            calcAux rest (total + serverTime o) (mkEstimate o :: acc) by
          simp [calcAux, hv]] at h
        obtain ⟨tail, hbd, ht, hlen, hval⟩ :=
          ih (total + serverTime o) (mkEstimate o :: acc) t bd h
        refine ⟨mkEstimate o :: tail, ?_, ?_, by simp [hlen], ?_⟩
        · rw [hbd]; simp
        · rw [ht]; simp [mkEstimate, add_assoc]
        · intro e he
          rcases List.mem_cons.mp he with he | he
          · exact ⟨o, he, by cases u; exact hv⟩
          · exact hval e he

lemma calculateEstimation_ok (servers : List Candidate)
    (res : EstimationResult) (h : calculateEstimation servers = .ok res) :
    res.totalTime = (res.breakdownByServer.map ServerEstimate.estimatedTime).sum ∧
    res.complexity = complexityOf res.totalTime ∧
    res.breakdownByServer.length = servers.length ∧
    ∀ e ∈ res.breakdownByServer, ∃ o : ServerObj,
      e = mkEstimate o ∧ validateServer (.obj o) = .ok () := by
  unfold calculateEstimation at h
  cases hc : calcAux servers 0 [] with
  | error e => rw [hc] at h; exact absurd h (by simp)
  | ok p =>
    obtain ⟨t, bd⟩ := p
    rw [hc] at h
    simp only [Except.ok.injEq] at h
    obtain ⟨tail, hbd, ht, hlen, hval⟩ := calcAux_ok servers 0 [] t bd hc
    simp only [List.reverse_nil, List.nil_append] at hbd
    subst hbd
    subst h
    exact ⟨by simpa using ht, rfl, hlen, hval⟩

lemma calcAux_error_of_first_invalid (pre : List Candidate) :
    ∀ (c : Candidate) (post : List Candidate) (msg : String)
      (total : ℚ) (acc : List ServerEstimate),
    (∀ p ∈ pre, validateServer p = .ok ()) →
    validateServer c = .error msg →
    calcAux (pre ++ c :: post) total acc = .error msg := by
  induction pre with
  | nil =>
    intro c post msg total acc _ hc
    simp [calcAux, hc]
  | cons p rest ih =>
    intro c post msg total acc hpre hc
    have hp : validateServer p = .ok () := hpre p (by simp)
    obtain ⟨o, rfl⟩ := validateServer_obj p hp
    rw [show calcAux ((Candidate.obj o :: rest) ++ c :: post) total acc =
        calcAux (rest ++ c :: post) (total + serverTime o) (mkEstimate o :: acc) by
      simp [calcAux, hp]]
    exact ih c post msg _ _ (fun x hx => hpre x (by simp [hx])) hc

lemma checkRequired_error_of_mem (s : ServerObj) (fs : List String) :
    ∀ f ∈ fs, falsy (fieldOf s f) = true →
    ∃ f', f' ∈ fs ∧ falsy (fieldOf s f') = true ∧
      checkRequired s fs = .error ("Missing required field: " ++ f') := by
  induction fs with
  | nil => intro f hf; simp at hf
  | cons g rest ih =>
    intro f hf hfal
    by_cases hg : falsy (fieldOf s g) = true
    · exact ⟨g, by simp, hg, by simp [checkRequired, hg]⟩
    · have hf' : f ∈ rest := by
        rcases List.mem_cons.mp hf with h | h
        · subst h; exact absurd hfal hg
        · exact h
      obtain ⟨f', hmem, hfal', heq⟩ := ih f hf' hfal
      exact ⟨f', by simp [hmem], hfal',
        by simp only [checkRequired, hg, if_false, Bool.false_eq_true]; simpa [hg] using heq⟩

lemma checkRequired_ok (o : ServerObj)
    (ht : falsy o.type = false) (hm : falsy o.manufacturer = false)
    (hmo : falsy o.model = false) (hq : falsy o.quantity = false) :
    checkRequired o requiredFields = .ok () := by
  simp [checkRequired, requiredFields, fieldOf, ht, hm, hmo, hq]

lemma validateServer_quantity_error (o : ServerObj)
    (ht : falsy o.type = false) (hm : falsy o.manufacturer = false)
    (hmo : falsy o.model = false) (hq : falsy o.quantity = false)
    (hty : isValidType o.type = true)
    (hqbad : ∀ q : ℚ, o.quantity = .num q → q ≤ 0) :
    validateServer (.obj o) = .error "Quantity must be a positive number" := by
  have hcr := checkRequired_ok o ht hm hmo hq
  simp only [validateServer, hcr, hty, if_true]
  cases hqv : o.quantity with
  | num q => simp [hqbad q hqv]
  | null => simp
  | undefined => simp
  | bool b => simp
  | str s => simp

lemma rackDell_valid : validateServer rackDellRecord = .ok () := by
  simp only [rackDellRecord, validateServer, checkRequired, requiredFields,
    fieldOf, falsy, isValidType, validTypes, String.reduceEq]
  norm_num

lemma rackDell_eval : calculateEstimation [rackDellRecord] = .ok rackDellResult := by
  simp only [rackDellRecord, rackDellResult, rackDellEstimate, calculateEstimation,
    calcAux, validateServer, checkRequired, requiredFields, fieldOf, falsy,
    isValidType, validTypes, serverTime, mkEstimate, baseTimeOf,
    complexityMultiplierOf, typeFactorsTable, manufacturerFactor,
    manufacturersTable, jsOr1, typeString, quantityNum, complexityOf,
    String.reduceEq]
  norm_num

lemma missingQuantity_error :
    validateServer missingQuantityRecord =
      .error ("Missing required field: " ++ "quantity") := by
  simp only [missingQuantityRecord, validateServer, checkRequired, requiredFields,
    fieldOf, falsy, String.reduceEq]
  norm_num

lemma calculateEstimation_singleton (o : ServerObj)
    (hv : validateServer (.obj o) = .ok ()) :
    calculateEstimation [.obj o] =
      .ok ⟨serverTime o, [mkEstimate o], complexityOf (serverTime o)⟩ := by
  unfold calculateEstimation
  rw [show calcAux [Candidate.obj o] 0 [] = .ok (0 + serverTime o, [mkEstimate o]) by
    simp [calcAux, hv]]
  simp

lemma manufacturerFactorJS_agrees (v : JSValue)
    (h : ∀ s, v = .str s → objectPrototypeKeys.contains s = false) :
    manufacturerFactorJS v = .num (manufacturerFactor v) := by
  cases v with
  | str s =>
    have hs : s ∉ objectPrototypeKeys := by simpa using h s rfl
    cases hm : manufacturersTable s with
    | some q =>
      by_cases hq : q = 0 <;>
        simp [manufacturerFactorJS, manufacturerFactor, manufacturersLookup,
          jsOr1, hm, hq]
    | none =>
      simp [manufacturerFactorJS, manufacturerFactor, manufacturersLookup, jsOr1,
        hm, hs]
  | null => rfl
  | undefined => rfl
  | bool b => rfl
  | num q => rfl

lemma toString_eval :
    calculateEstimationJS [toStringRecord] =
      .ok ⟨.nan, [⟨.str "rack", .str "toString", .str "X", .num 1, .nan⟩], "Low"⟩ := by
  have hv : validateServer
      (.obj ⟨.str "rack", .str "toString", .str "X", .num 1⟩) = .ok () := by
    simp only [validateServer, checkRequired, requiredFields, fieldOf, falsy,
      isValidType, validTypes, String.reduceEq]
    norm_num
  have h1 : manufacturersTable "toString" = none := by simp [manufacturersTable]
  have h2 : "toString" ∈ objectPrototypeKeys := by decide
  have hmf : manufacturerFactorJS (.str "toString") = .nan := by
    simp [manufacturerFactorJS, manufacturersLookup, h1, h2]
  have hst : serverTimeJS ⟨.str "rack", .str "toString", .str "X", .num 1⟩ = .nan := by
    simp [serverTimeJS, hmf, JNum.mul]
  rw [show toStringRecord =
      Candidate.obj ⟨.str "rack", .str "toString", .str "X", .num 1⟩ from rfl]
  unfold calculateEstimationJS
  rw [show calcAuxJS [Candidate.obj ⟨.str "rack", .str "toString", .str "X", .num 1⟩]
        (.num 0) [] =
      .ok ((JNum.num 0).add (serverTimeJS ⟨.str "rack", .str "toString", .str "X", .num 1⟩),
        [mkEstimateJS ⟨.str "rack", .str "toString", .str "X", .num 1⟩]) by
    simp [calcAuxJS, hv]]
  rw [hst]
  rfl

/-! ## Claim theorems -/

/-- Formula identity of the spec-default model: every entry of a
successful breakdown carries the exact multiplicative formula over
`manufacturerFactor`, the lookup with the documented default to 1.0.
This is what the program does for every manufacturer outside the
`Object.prototype` name set; on that set the program itself deviates, see
`C1_prototype_leak_nan`. -/
lemma specDefault_estimated_time_formula (servers : List Candidate)
    (res : EstimationResult) (h : calculateEstimation servers = .ok res) :
    ∀ e ∈ res.breakdownByServer,
      e.estimatedTime =
        baseTimeOf (typeString e.type) * manufacturerFactor e.manufacturer *
          complexityMultiplierOf (typeString e.type) * quantityNum e.quantity := by
  intro e he
  obtain ⟨-, -, -, hval⟩ := calculateEstimation_ok servers res h
  obtain ⟨o, rfl, -⟩ := hval e he
  rfl

/-- C1 (code bug): the claim — and the spec — say a manufacturer not in
the table gets factor 1.0, making `estimatedTime` the numeric product
`baseTime * 1.0 * complexityMultiplier * quantity`.  In the program the
bracket lookup at worker.js:86 inherits `Object.prototype` properties:
on the valid record with manufacturer toString (not a table key) the
engine succeeds with estimatedTime NaN, not the numeric value
`2 * 1 * 1.2 * 1` that the claimed formula prescribes. -/
theorem C1_prototype_leak_nan :
    calculateEstimationJS [toStringRecord] =
        .ok ⟨.nan, [⟨.str "rack", .str "toString", .str "X", .num 1, .nan⟩], "Low"⟩ ∧
      manufacturersTable "toString" = none ∧
      JNum.nan ≠ .num (baseTimeOf "rack" * 1 * complexityMultiplierOf "rack" *
        quantityNum (.num 1)) := by
  refine ⟨toString_eval, by simp [manufacturersTable], ?_⟩
  intro h
  exact JNum.noConfusion h

/-- C2: the complexity the engine reports is a pure function of the
`totalTime` of the batch alone, with boundaries `totalTime > 20 → High`,
`10 < totalTime ≤ 20 → Medium`, `totalTime ≤ 10 → Low`; in particular
exactly 20 classifies as Medium and exactly 10 as Low. -/
theorem C2_complexity_boundaries :
    (∀ servers res, calculateEstimation servers = .ok res →
      res.complexity = complexityOf res.totalTime) ∧
    (∀ t : ℚ, 20 < t → complexityOf t = "High") ∧
    (∀ t : ℚ, 10 < t → t ≤ 20 → complexityOf t = "Medium") ∧
    (∀ t : ℚ, t ≤ 10 → complexityOf t = "Low") ∧
    complexityOf 20 = "Medium" ∧ complexityOf 10 = "Low" := by
  refine ⟨?_, ?_, ?_, ?_, ?_, ?_⟩
  · intro servers res h; exact (calculateEstimation_ok servers res h).2.1
  · intro t ht; simp [complexityOf, ht]
  · intro t h1 h2; simp [complexityOf, h1, not_lt.mpr h2]
  · intro t ht
    simp [complexityOf, not_lt.mpr ht,
      not_lt.mpr (le_trans ht (by norm_num : (10:ℚ) ≤ 20))]
  · norm_num [complexityOf]
  · norm_num [complexityOf]

/-- Witness for C2 at concrete totals 25, 15, 5. -/
theorem C2_complexity_boundaries_witness :
    complexityOf 25 = "High" ∧ complexityOf 15 = "Medium" ∧
      complexityOf 5 = "Low" :=
  ⟨C2_complexity_boundaries.2.1 25 (by norm_num),
   C2_complexity_boundaries.2.2.1 15 (by norm_num) (by norm_num),
   C2_complexity_boundaries.2.2.2.1 5 (by norm_num)⟩

/-- C3: if every record before position k is valid and the record at
position k fails validation, the whole batch fails with exactly that
validation error of that record; the error result carries only the message, so
no breakdown is produced for any record, including the valid earlier ones. -/
theorem C3_fail_fast (pre post : List Candidate) (c : Candidate) (msg : String)
    (hpre : ∀ p ∈ pre, validateServer p = .ok ())
    (hc : validateServer c = .error msg) :
    calculateEstimation (pre ++ c :: post) = .error msg := by
  unfold calculateEstimation
  rw [calcAux_error_of_first_invalid pre c post msg 0 [] hpre hc]

/-- Witness for C3: a batch valid-invalid-valid fails with the middle
missing-quantity error of the middle record. -/
theorem C3_fail_fast_witness :
    calculateEstimation [rackDellRecord, missingQuantityRecord, rackDellRecord] =
      .error ("Missing required field: " ++ "quantity") :=
  C3_fail_fast [rackDellRecord] [rackDellRecord] missingQuantityRecord
    ("Missing required field: " ++ "quantity")
    (by intro p hp; simp only [List.mem_singleton] at hp; subst hp; exact rackDell_valid)
    missingQuantity_error

/-- C4: for every batch on which the engine succeeds, `totalTime` equals
the sum of the `estimatedTime` values of the entries of `breakdownByServer`. -/
theorem C4_total_is_sum (servers : List Candidate) (res : EstimationResult)
    (h : calculateEstimation servers = .ok res) :
    res.totalTime = (res.breakdownByServer.map ServerEstimate.estimatedTime).sum :=
  (calculateEstimation_ok servers res h).1

/-- Witness for C4 at the rack/Dell example of the spec. -/
theorem C4_total_is_sum_witness :
    rackDellResult.totalTime =
      (rackDellResult.breakdownByServer.map ServerEstimate.estimatedTime).sum :=
  C4_total_is_sum [rackDellRecord] rackDellResult rackDell_eval

/-- C5: whenever one of the four required fields of a record is falsy
(absent key reads as `undefined`; empty string, 0, null, undefined all
count), validation fails with a `Missing required field` error naming a
field that is indeed missing (the first such field in source order). -/
theorem C5_missing_field (o : ServerObj) (f : String)
    (hf : f ∈ requiredFields) (hfal : falsy (fieldOf o f) = true) :
    ∃ f', f' ∈ requiredFields ∧ falsy (fieldOf o f') = true ∧
      validateServer (.obj o) = .error ("Missing required field: " ++ f') := by
  obtain ⟨f', hmem, hfal', heq⟩ := checkRequired_error_of_mem o requiredFields f hf hfal
  exact ⟨f', hmem, hfal', by simp [validateServer, heq]⟩

/-- Witness for C5: the record with `quantity: null` fails naming `quantity`. -/
theorem C5_missing_field_witness :
    validateServer missingQuantityRecord =
      .error ("Missing required field: " ++ "quantity") := by
  obtain ⟨f', hmem, hfal, heq⟩ :=
    C5_missing_field ⟨.str "rack", .str "Dell", .str "R740", .null⟩ "quantity"
      (by simp [requiredFields]) (by simp [fieldOf, falsy])
  simp only [requiredFields, List.mem_cons, List.not_mem_nil, or_false] at hmem
  rcases hmem with h | h | h | h <;> subst h
  · exact absurd hfal (by simp [fieldOf, falsy])
  · exact absurd hfal (by simp [fieldOf, falsy])
  · exact absurd hfal (by simp [fieldOf, falsy])
  · exact heq

/-- C6 counterexample: with `quantity: 0` and the other fields valid, the
code rejects the record via the permissive required-field loop (`!server.quantity`
is true for 0), producing the missing-field error — not the
quantity-must-be-positive error the claim asserts. -/
theorem C6_counterexample :
    validateServer zeroQuantityRecord =
        .error ("Missing required field: " ++ "quantity") ∧
      validateServer zeroQuantityRecord ≠
        .error "Quantity must be a positive number" := by
  have h1 : validateServer zeroQuantityRecord =
      .error ("Missing required field: " ++ "quantity") := by
    simp only [zeroQuantityRecord, validateServer, checkRequired, requiredFields,
      fieldOf, falsy, String.reduceEq]
    norm_num
  refine ⟨h1, ?_⟩
  rw [h1]
  intro heq
  exact absurd (Except.error.inj heq) (by decide)

/-- C6 (amended): a record with `quantity = 0` and the other three fields
present and truthy is rejected, but by the required-field loop — 0 is
falsy — with the error `Missing required field: quantity`; the positivity
check is never reached. -/
theorem C6_zero_quantity_missing_field (o : ServerObj)
    (ht : falsy o.type = false) (hm : falsy o.manufacturer = false)
    (hmo : falsy o.model = false) (hq : o.quantity = .num 0) :
    validateServer (.obj o) =
      .error ("Missing required field: " ++ "quantity") := by
  have hfq : falsy (JSValue.num 0) = true := by simp [falsy]
  have hcr : checkRequired o requiredFields =
      .error ("Missing required field: " ++ "quantity") := by
    simp [checkRequired, requiredFields, fieldOf, ht, hm, hmo, hq, hfq]
  simp [validateServer, hcr]

/-- Witness for the amended C6 at the concrete `quantity: 0` record. -/
theorem C6_zero_quantity_missing_field_witness :
    validateServer zeroQuantityRecord =
      .error ("Missing required field: " ++ "quantity") :=
  C6_zero_quantity_missing_field ⟨.str "rack", .str "Dell", .str "R740", .num 0⟩
    (by simp [falsy]) (by simp [falsy]) (by simp [falsy]) rfl

/-- C7: a record with type rack, any truthy manufacturer and model, and
quantity -1 or the quantity string five makes the batch fail with the
quantity-specific error `Quantity must be a positive number` — not a
missing-field or type error. -/
theorem C7_quantity_specific_error (m mo : JSValue)
    (hm : falsy m = false) (hmo : falsy mo = false) :
    calculateEstimation [.obj ⟨.str "rack", m, mo, .num (-1)⟩] =
        .error "Quantity must be a positive number" ∧
      calculateEstimation [.obj ⟨.str "rack", m, mo, .str "five"⟩] =
        .error "Quantity must be a positive number" := by
  have h1 := validateServer_quantity_error ⟨.str "rack", m, mo, .num (-1)⟩
    (by simp [falsy]) hm hmo (by norm_num [falsy])
    (by simp [isValidType, validTypes])
    (by intro q hq; injection hq with h; rw [← h]; norm_num)
  have h2 := validateServer_quantity_error ⟨.str "rack", m, mo, .str "five"⟩
    (by simp [falsy]) hm hmo (by simp [falsy])
    (by simp [isValidType, validTypes])
    (by intro q hq; cases hq)
  constructor
  · simp [calculateEstimation, calcAux, h1]
  · simp [calculateEstimation, calcAux, h2]

/-- Witness for C7 with manufacturer Dell and model R740. -/
theorem C7_quantity_specific_error_witness :
    calculateEstimation [.obj ⟨.str "rack", .str "Dell", .str "R740", .num (-1)⟩] =
      .error "Quantity must be a positive number" :=
  (C7_quantity_specific_error (.str "Dell") (.str "R740")
    (by simp [falsy]) (by simp [falsy])).1

/-- C8: on the empty batch the engine succeeds with `totalTime = 0`, an
empty breakdown, and complexity Low. -/
theorem C8_empty_batch : calculateEstimation [] = .ok ⟨0, [], "Low"⟩ := by
  norm_num [calculateEstimation, calcAux, complexityOf]

/-- C9: the two worked examples of the spec: rack/Dell/R740 × 1 gives
`estimatedTime = 2 * 0.9 * 1.2 * 1 = 2.16`, total 2.16, complexity Low;
blade/Unknown/X × 5 defaults the manufacturer factor to 1.0 and gives
`estimatedTime = 3 * 1.0 * 1.5 * 5 = 22.5`, complexity High. -/
theorem C9_worked_examples :
    calculateEstimation [.obj ⟨.str "rack", .str "Dell", .str "R740", .num 1⟩] =
        .ok ⟨2.16, [⟨.str "rack", .str "Dell", .str "R740", .num 1, 2.16⟩], "Low"⟩ ∧
      manufacturerFactor (.str "Unknown") = 1 ∧
      calculateEstimation [.obj ⟨.str "blade", .str "Unknown", .str "X", .num 5⟩] =
        .ok ⟨22.5, [⟨.str "blade", .str "Unknown", .str "X", .num 5, 22.5⟩], "High"⟩ := by
  refine ⟨?_, ?_, ?_⟩
  · simp only [calculateEstimation, calcAux, validateServer, checkRequired,
      requiredFields, fieldOf, falsy, isValidType, validTypes, serverTime,
      mkEstimate, baseTimeOf, complexityMultiplierOf, typeFactorsTable,
      manufacturerFactor, manufacturersTable, jsOr1, typeString, quantityNum,
      complexityOf, String.reduceEq]
    norm_num
  · simp [manufacturerFactor, manufacturersTable, jsOr1]
  · have hv : validateServer
        (.obj ⟨.str "blade", .str "Unknown", .str "X", .num 5⟩) = .ok () := by
      simp only [validateServer, checkRequired, requiredFields, fieldOf, falsy,
        isValidType, validTypes, String.reduceEq]
      norm_num
    have hst : serverTime ⟨.str "blade", .str "Unknown", .str "X", .num 5⟩ = 22.5 := by
      simp [serverTime, typeString, quantityNum, baseTimeOf, complexityMultiplierOf,
        typeFactorsTable, manufacturerFactor, manufacturersTable, jsOr1]
      norm_num
    rw [calculateEstimation_singleton _ hv, hst]
    norm_num [mkEstimate, hst, complexityOf]

/-- Positivity in the spec-default model: with the documented default to
1.0 every factor is positive, so each `estimatedTime` is strictly
positive and the total is nonnegative, positive on non-empty batches.
This is the invariant the program was meant to have; the program itself
breaks it on the `Object.prototype` name set, see
`C10_prototype_leak_nan`. -/
lemma specDefault_positivity (servers : List Candidate) (res : EstimationResult)
    (h : calculateEstimation servers = .ok res) :
    (∀ e ∈ res.breakdownByServer, 0 < e.estimatedTime) ∧
      0 ≤ res.totalTime ∧ (servers ≠ [] → 0 < res.totalTime) := by
  obtain ⟨hsum, -, hlen, hval⟩ := calculateEstimation_ok servers res h
  have hpos : ∀ e ∈ res.breakdownByServer, 0 < e.estimatedTime := by
    intro e he
    obtain ⟨o, rfl, hv⟩ := hval e he
    exact serverTime_pos o hv
  refine ⟨hpos, ?_, ?_⟩
  · rw [hsum]
    refine List.sum_nonneg ?_
    intro x hx
    obtain ⟨e, he, rfl⟩ := List.mem_map.mp hx
    exact le_of_lt (hpos e he)
  · intro hne
    rw [hsum]
    cases hbd : res.breakdownByServer with
    | nil =>
      rw [hbd] at hlen
      cases servers with
      | nil => exact absurd rfl hne
      | cons a l => simp at hlen
    | cons e rest =>
      have h0 : 0 < e.estimatedTime := hpos e (by rw [hbd]; exact List.mem_cons_self e rest)
      have hrest : 0 ≤ (rest.map ServerEstimate.estimatedTime).sum := by
        refine List.sum_nonneg ?_
        intro x hx
        obtain ⟨e', he', rfl⟩ := List.mem_map.mp hx
        exact le_of_lt (hpos e' (by rw [hbd]; exact List.mem_cons_of_mem e he'))
      simp only [List.map_cons, List.sum_cons]
      exact add_pos_of_pos_of_nonneg h0 hrest

/-- C10 (code bug): the claim says every successful batch has strictly
positive `estimatedTime` entries and nonnegative `totalTime`, positive
when the batch is non-empty.  On the valid non-empty batch whose
manufacturer collides with `Object.prototype.toString` the engine
succeeds, yet the breakdown entry and the total are NaN — and the
JavaScript comparisons `NaN > 0` and `NaN >= 0` are both false, so the
result is neither strictly positive nor nonnegative. -/
theorem C10_prototype_leak_nan :
    calculateEstimationJS [toStringRecord] =
        .ok ⟨.nan, [⟨.str "rack", .str "toString", .str "X", .num 1, .nan⟩], "Low"⟩ ∧
      JNum.nan.gtb 0 = false ∧ JNum.nan.geb 0 = false ∧
      ([toStringRecord] : List Candidate) ≠ [] :=
  ⟨toString_eval, rfl, rfl, by simp⟩
